import Mathlib

/-!
Shallow embedding of the store-monitoring report service
(`app/services/report_service.py` together with the data model of
`app/models/models.py`), and theorems checking the natural-language
specification against it.

Modelling conventions:
* UTC timestamps are rationals counting seconds; `timedelta(hours=1)` is
  3600, one day 86400, one week 604800.  Durations in minutes are
  `seconds / 60`, exactly as `total_seconds() / 60` computes them; `ℚ`
  keeps the sub-minute precision the service keeps in floats.
* The `pytz`/`datetime` local-time conversion
  (`timestamp.astimezone(tz)`, `.weekday()`, `.strftime("%H:%M")`) is an
  external library; it is modelled by an oracle `Tz` mapping a zone name
  and a UTC timestamp to a local weekday / hour / minute, with the
  zero-padded `"HH:MM"` rendering (`timeStr`) done as `strftime` does.
* The relational store is a `DB` record of the four tables; SQLAlchemy
  queries become filters / sorts / finds over those lists
  (`between` is inclusive on both ends, `order_by` sorts ascending,
  `.first()` on a `desc` ordering picks a maximal element).
* `generate_report` is modelled as the list of externally visible
  effects it performs, in order: status writes, session commits, batch
  completions and the artifact write.
-/

namespace SM

/-- `ReportStatus` enum of `models.py`. -/
inductive ReportStatus where
  | RUNNING
  | COMPLETED
  | FAILED
deriving DecidableEq

/-- A row of the `stores` table.  The `timezone` column carries the
default `"America/Chicago"` applied at insert time, so it is a plain
string here. -/
structure Store where
  store_id : String
  timezone : String
deriving DecidableEq

/-- A row of the `business_hours` table. -/
structure BusinessHours where
  store_id : String
  day_of_week : Nat
  start_time_local : String
  end_time_local : String
deriving DecidableEq

/-- A row of the `store_status` table; the timestamp is UTC seconds. -/
structure StoreStatus where
  store_id : String
  timestamp_utc : ℚ
  status : String
deriving DecidableEq

/-- A row of the `reports` table. -/
structure Report where
  report_id : String
  status : ReportStatus
  file_path : Option String
  created_at : ℚ
  completed_at : Option ℚ
deriving DecidableEq

/-- The relational database visible to the service, one list per table. -/
structure DB where
  stores : List Store
  business_hours : List BusinessHours
  store_status : List StoreStatus
  reports : List Report

/-- A local wall-clock instant as the service reads it off a converted
`datetime`: `weekday()` (0 = Monday .. 6 = Sunday) and the hour/minute
that `strftime("%H:%M")` prints. -/
structure LocalTime where
  weekday : Nat
  hour : Nat
  minute : Nat
deriving DecidableEq

/-- The time-zone oracle: zone name and UTC timestamp to local time,
abstracting `pytz.timezone` plus `astimezone`. -/
def Tz : Type := String → ℚ → LocalTime

/-- Two-digit zero padding, as `strftime`'s `%H` / `%M` fields. -/
def fmt2 (n : Nat) : String :=
  if n < 10 then "0" ++ toString n else toString n

/-- The `"HH:MM"` string `strftime("%H:%M")` produces. -/
def timeStr (lt : LocalTime) : String :=
  fmt2 lt.hour ++ ":" ++ fmt2 lt.minute

/-- One element of the list `_get_business_hours` returns: the dict
`{"day": _, "start": _, "end": _}`. -/
structure HoursDict where
  day : Nat
  start : String
  end_ : String
deriving DecidableEq

/-- Lexicographic comparison of character sequences, the order Python's
`<=` applies to strings. -/
def charListLe : List Char → List Char → Bool
  | [], _ => true
  | _ :: _, [] => false
  | a :: as, b :: bs =>
    if a < b then true
    else if b < a then false
    else charListLe as bs

/-- Python's `s <= t` on strings: lexicographic on the characters. -/
def strLe (a b : String) : Bool := charListLe a.data b.data

/-- `ReportService.create_report`: the record is created with status
`RUNNING` and a creation timestamp, no file path, no completion time. -/
def create_report (report_id : String) (now : ℚ) : Report :=
  { report_id := report_id
    status := ReportStatus.RUNNING
    file_path := none
    created_at := now
    completed_at := none }

/-- `ReportService.get_report`: first `reports` row with this id. -/
def get_report (db : DB) (report_id : String) : Option Report :=
  db.reports.find? (fun r => r.report_id == report_id)

/-- `ReportService._get_store_timezone`: the store row's timezone, or
`"America/Chicago"` when no row exists. -/
def get_store_timezone (db : DB) (store_id : String) : String :=
  match db.stores.find? (fun s => s.store_id == store_id) with
  | some store => store.timezone
  | none => "America/Chicago"

/-- The 24/7 default calendar `_get_business_hours` synthesizes when a
store has no `business_hours` rows. -/
def defaultBusinessHours : List HoursDict :=
  (List.range 7).map (fun i => { day := i, start := "00:00", end_ := "23:59" })

/-- `ReportService._get_business_hours`: the store's rows as dicts, or
the 24/7 default when it has none. -/
def get_business_hours (db : DB) (store_id : String) : List HoursDict :=
  let hours := db.business_hours.filter (fun h => h.store_id == store_id)
  if hours.isEmpty then defaultBusinessHours
  else hours.map (fun h =>
    { day := h.day_of_week, start := h.start_time_local, end_ := h.end_time_local })

/-- The in-line business-hours loop of `_calculate_uptime_downtime`
(lines 105–109): it scans the rule list, and at the FIRST rule whose
`day` equals the local weekday it decides by
`hours["start"] <= time_str <= hours["end"]` and `break`s; if no rule
names the weekday the answer is `False`. -/
def businessHoursCheck (rules : List HoursDict) (day_of_week : Nat) (time_str : String) : Bool :=
  match rules with
  | [] => false
  | r :: rest =>
    if r.day == day_of_week then
      strLe r.start time_str && strLe time_str r.end_
    else businessHoursCheck rest day_of_week time_str

/-- `ReportService._is_within_business_hours` (the standalone helper,
lines 55–66): same first-match scan over the store's rules, on the
local time of the given timestamp. -/
def is_within_business_hours (tz : Tz) (db : DB) (timestamp : ℚ) (store_id : String) : Bool :=
  let timezone := get_store_timezone db store_id
  let local_time := tz timezone timestamp
  businessHoursCheck (get_business_hours db store_id) local_time.weekday (timeStr local_time)

/-- The ascending `ORDER BY timestamp_utc`, as a stable sort on the
timestamp. -/
def byTimestampLe : StoreStatus → StoreStatus → Prop :=
  fun a b => a.timestamp_utc ≤ b.timestamp_utc

instance : DecidableRel byTimestampLe :=
  fun a b => inferInstanceAs (Decidable (a.timestamp_utc ≤ b.timestamp_utc))

instance : IsTotal StoreStatus byTimestampLe :=
  ⟨fun a b => le_total a.timestamp_utc b.timestamp_utc⟩

instance : IsTrans StoreStatus byTimestampLe :=
  ⟨fun _ _ _ hab hbc => le_trans hab hbc⟩

/-- The observation fetch of `_calculate_uptime_downtime` (lines
73–77): rows of this store with `timestamp_utc` in the inclusive range
(`between` includes both endpoints), ascending by timestamp. -/
def fetchStatusUpdates (db : DB) (store_id : String) (start_time end_time : ℚ) :
    List StoreStatus :=
  (db.store_status.filter (fun s =>
      s.store_id == store_id
        && decide (start_time ≤ s.timestamp_utc)
        && decide (s.timestamp_utc ≤ end_time))).insertionSort byTimestampLe

/-- The adjacent pairs `(status_updates[i], status_updates[i+1])` that
the loop `for i in range(len(status_updates) - 1)` walks. -/
def adjPairs : List StoreStatus → List (StoreStatus × StoreStatus)
  | [] => []
  | [_] => []
  | a :: b :: rest => (a, b) :: adjPairs (b :: rest)

/-- The accumulation loop of `_calculate_uptime_downtime` (lines
95–120) over the adjacent pairs: convert the CURRENT observation's
timestamp to local time, run the first-match business-hours check,
`continue` when it fails, otherwise add
`(next - current).total_seconds() / 60` to the accumulator picked by
`current.status == "active"`. -/
def aggLoop (tz : Tz) (timezone : String) (rules : List HoursDict) :
    ℚ × ℚ → List (StoreStatus × StoreStatus) → ℚ × ℚ
  | acc, [] => acc
  | acc, p :: rest =>
    let local_time := tz timezone p.1.timestamp_utc
    let is_within_hours := businessHoursCheck rules local_time.weekday (timeStr local_time)
    if is_within_hours then
      let time_diff := (p.2.timestamp_utc - p.1.timestamp_utc) / 60
      if p.1.status == "active" then
        aggLoop tz timezone rules (acc.1 + time_diff, acc.2) rest
      else
        aggLoop tz timezone rules (acc.1, acc.2 + time_diff) rest
    else
      aggLoop tz timezone rules acc rest

/-- `ReportService._calculate_uptime_downtime`: fetch the in-range
observations ascending, return `(0, 0)` when there are none (and hence,
through the empty pair list, also when there is exactly one), otherwise
run the accumulation loop from `(0, 0)`. -/
def calculate_uptime_downtime (tz : Tz) (db : DB) (store_id : String)
    (start_time end_time : ℚ) : ℚ × ℚ :=
  let status_updates := fetchStatusUpdates db store_id start_time end_time
  if status_updates.isEmpty then (0, 0)
  else
    let business_hours := get_business_hours db store_id
    let timezone := get_store_timezone db store_id
    aggLoop tz timezone business_hours (0, 0) (adjPairs status_updates)

/-- One line of the result list `generate_report` builds per store
(the `store_results` dict of lines 195–203). -/
structure StoreResult where
  store_id : String
  uptime_last_hour : ℚ
  uptime_last_day : ℚ
  uptime_last_week : ℚ
  downtime_last_hour : ℚ
  downtime_last_day : ℚ
  downtime_last_week : ℚ
deriving DecidableEq

/-- Round half to even on integers-with-fraction, the convention of
Python's builtin `round` on the exact value. -/
def roundHalfEven (q : ℚ) : ℤ :=
  let f := q - ⌊q⌋
  if f < 1 / 2 then ⌊q⌋
  else if 1 / 2 < f then ⌊q⌋ + 1
  else if 2 ∣ ⌊q⌋ then ⌊q⌋ else ⌊q⌋ + 1

/-- Python's `round(x, 2)`: round half to even at two decimal digits. -/
def round2 (q : ℚ) : ℚ :=
  (roundHalfEven (q * 100) : ℚ) / 100

/-- The `store_results` dict built at lines 190–203: three aggregator
calls, then the hour window kept in minutes and the day/week windows
divided by 60 BEFORE rounding, all six through `round(_, 2)`. -/
def processStore (tz : Tz) (db : DB) (last_hour last_day last_week end_time : ℚ)
    (store : Store) : StoreResult :=
  let hourPair := calculate_uptime_downtime tz db store.store_id last_hour end_time
  let dayPair := calculate_uptime_downtime tz db store.store_id last_day end_time
  let weekPair := calculate_uptime_downtime tz db store.store_id last_week end_time
  { store_id := store.store_id
    uptime_last_hour := round2 hourPair.1
    uptime_last_day := round2 (dayPair.1 / 60)
    uptime_last_week := round2 (weekPair.1 / 60)
    downtime_last_hour := round2 hourPair.2
    downtime_last_day := round2 (dayPair.2 / 60)
    downtime_last_week := round2 (weekPair.2 / 60) }

/-- The maximal `timestamp_utc` in the whole `store_status` table, as
`query(StoreStatus).order_by(timestamp_utc.desc()).first()` reads it;
`none` when the table is empty (then `oldest_status` is also `None`
and line 145's no-data check fires). -/
def newestTimestamp (db : DB) : Option ℚ :=
  match db.store_status.map (fun s => s.timestamp_utc) with
  | [] => none
  | t :: ts => some (ts.foldl max t)

/-- The three windows of lines 152–155: shared `end`, starts one hour,
one day and one week (in seconds) earlier. -/
def planWindows (end_time : ℚ) : (ℚ × ℚ) × (ℚ × ℚ) × (ℚ × ℚ) :=
  ((end_time - 3600, end_time), (end_time - 86400, end_time), (end_time - 604800, end_time))

/-- The batch start offsets `range(0, len(stores), batch_size)` with
`batch_size = 100`. -/
def batchIndices (n : Nat) : List Nat :=
  (List.range ((n + 100 - 1) / 100)).map (fun j => j * 100)

/-- Externally visible effects of a `generate_report` call, in program
order: a write to `report.status`, a session `commit()`, the completion
of one batch (with the 1-based batch label and the rows it appended to
`results`), and the `to_csv` artifact write with the rows it renders. -/
inductive RunEff where
  | setStatus (st : ReportStatus)
  | commit
  | batchDone (batch : Nat) (rows : List StoreResult)
  | writeArtifact (rows : List StoreResult) (path : String)
deriving DecidableEq

/-- The batch loop of lines 178–228: for each selected start offset,
slice `stores[i : i+100]`, build one `StoreResult` per store in order,
extend `results`, and `commit()`.  Returns the effect list and the
final accumulated `results`. -/
def runBatches (tz : Tz) (db : DB) (last_hour last_day last_week end_time : ℚ) :
    List Nat → List RunEff × List StoreResult
  | [] => ([], [])
  | i :: rest =>
    let batch := (db.stores.drop i).take 100
    let batch_results := batch.map (processStore tz db last_hour last_day last_week end_time)
    let tail := runBatches tz db last_hour last_day last_week end_time rest
    (RunEff.batchDone (i / 100 + 1) batch_results :: RunEff.commit :: tail.1,
      batch_results ++ tail.2)

/-- `ReportService.generate_report`, as its effect trace.
* Missing report row: the early `return` of line 135 — no effects.
* Empty `store_status` table: `FAILED` + commit (lines 145–149).
* Batch selector: `process_batch == -1` selects every batch offset;
  any other value outside `[1, total_batches]` is `FAILED` + commit
  (lines 169–173); otherwise the single offset `(pb - 1) * 100`.
* Selected batches run in order, each followed by a commit; then the
  CSV artifact is written from the accumulated rows and the report is
  marked `COMPLETED` and committed (lines 230–242).
* Lines 248–249 then divide by `len(stores)` (and `total_batches`): with
  zero stores this raises `ZeroDivisionError` AFTER the completed
  commit, and the `except` handler (lines 251–254) marks the report
  `FAILED` and commits again. -/
def generate_report (tz : Tz) (db : DB) (process_batch : ℤ) (report_id : String) :
    List RunEff :=
  match get_report db report_id with
  | none => []
  | some _ =>
    match newestTimestamp db with
    | none => [RunEff.setStatus ReportStatus.FAILED, RunEff.commit]
    | some end_time =>
      let total_batches : Nat := (db.stores.length + 100 - 1) / 100
      let selected : Option (List Nat) :=
        if process_batch == -1 then some (batchIndices db.stores.length)
        else if process_batch < 1 || (total_batches : ℤ) < process_batch then none
        else some [(process_batch.toNat - 1) * 100]
      match selected with
      | none => [RunEff.setStatus ReportStatus.FAILED, RunEff.commit]
      | some idxs =>
        let windows := planWindows end_time
        let ran := runBatches tz db windows.1.1 windows.2.1.1 windows.2.2.1 end_time idxs
        ran.1
          ++ [RunEff.writeArtifact ran.2 ("reports/report_" ++ report_id ++ ".csv"),
              RunEff.setStatus ReportStatus.COMPLETED, RunEff.commit]
          ++ (if db.stores.length == 0 then
                [RunEff.setStatus ReportStatus.FAILED, RunEff.commit]
              else [])

/-- The sequence of values written to this run's `status` column:
`create_report` writes `RUNNING`, then `generate_report`'s `setStatus`
effects follow in order. -/
def runStatusTrace (tz : Tz) (db : DB) (process_batch : ℤ) (report_id : String) (now : ℚ) :
    List ReportStatus :=
  (create_report report_id now).status ::
    (generate_report tz db process_batch report_id).filterMap
      (fun e => match e with
        | RunEff.setStatus st => some st
        | _ => none)

/-- The per-batch completion events of a trace, with their row lists. -/
def batchEvents (effs : List RunEff) : List (Nat × List StoreResult) :=
  effs.filterMap (fun e => match e with
    | RunEff.batchDone b rows => some (b, rows)
    | _ => none)

/-- The artifact writes of a trace. -/
def artifactEvents (effs : List RunEff) : List (List StoreResult × String) :=
  effs.filterMap (fun e => match e with
    | RunEff.writeArtifact rows path => some (rows, path)
    | _ => none)

/-! ### Specification-side definitions

These follow the wording of the specification, to be compared with the
definitions above that were read off the source. -/

/-- `(next.timestamp - current.timestamp)` in minutes for one adjacent
pair. -/
def gapMinutes (p : StoreStatus × StoreStatus) : ℚ :=
  (p.2.timestamp_utc - p.1.timestamp_utc) / 60

/-- Sum of the minute gaps of the pairs selected by `P`. -/
def sumGaps (P : StoreStatus × StoreStatus → Bool) (ps : List (StoreStatus × StoreStatus)) : ℚ :=
  ((ps.filter P).map gapMinutes).sum

/-- The business-hours test the aggregation loop applies to a pair: the
first-match rule scan on the local time of the pair's STARTING
observation. -/
def inHoursPair (tz : Tz) (timezone : String) (rules : List HoursDict)
    (p : StoreStatus × StoreStatus) : Bool :=
  let local_time := tz timezone p.1.timestamp_utc
  businessHoursCheck rules local_time.weekday (timeStr local_time)

/-- A pair that accrues uptime: in hours and starting observation
active. -/
def activeGap (tz : Tz) (timezone : String) (rules : List HoursDict)
    (p : StoreStatus × StoreStatus) : Bool :=
  inHoursPair tz timezone rules p && (p.1.status == "active")

/-- A pair that accrues downtime: in hours and starting observation not
active. -/
def inactiveGap (tz : Tz) (timezone : String) (rules : List HoursDict)
    (p : StoreStatus × StoreStatus) : Bool :=
  inHoursPair tz timezone rules p && !(p.1.status == "active")

/-- Modelled from the spec's words for claim C1: a local time "falls
inside SOME operating-hours rule for that weekday", both endpoints
inclusive. -/
def spec_some_rule_within (rules : List HoursDict) (day_of_week : Nat) (time_str : String) :
    Bool :=
  rules.any (fun r => r.day == day_of_week
    && strLe r.start time_str && strLe time_str r.end_)

/-- Modelled from the spec's words for claim C1: the accumulator pair
that results when a gap is counted exactly when its starting
observation's local time lies inside SOME rule for its weekday. -/
def spec_counted_sums (tz : Tz) (db : DB) (store_id : String) (start_time end_time : ℚ) :
    ℚ × ℚ :=
  let l := fetchStatusUpdates db store_id start_time end_time
  let rules := get_business_hours db store_id
  let timezone := get_store_timezone db store_id
  let P := fun (p : StoreStatus × StoreStatus) =>
    spec_some_rule_within rules (tz timezone p.1.timestamp_utc).weekday
      (timeStr (tz timezone p.1.timestamp_utc))
  (sumGaps (fun p => P p && (p.1.status == "active")) (adjPairs l),
   sumGaps (fun p => P p && !(p.1.status == "active")) (adjPairs l))

/-! ### Concrete data for witnesses and counterexamples -/

/-- A time-zone oracle sending every timestamp to one local instant. -/
def constTz (lt : LocalTime) : Tz := fun _ _ => lt

/-- Oracle for the C1 counterexample: every timestamp reads as
Wednesday (weekday 2) 19:00 local. -/
def cexTz : Tz := constTz { weekday := 2, hour := 19, minute := 0 }

/-- C1 counterexample database: store `s1` has TWO Wednesday rules,
09:00–17:00 and 18:00–20:00, and two observations 30 minutes apart. -/
def cexDb : DB :=
  { stores := [{ store_id := "s1", timezone := "UTC" }]
    business_hours :=
      [{ store_id := "s1", day_of_week := 2, start_time_local := "09:00",
         end_time_local := "17:00" },
       { store_id := "s1", day_of_week := 2, start_time_local := "18:00",
         end_time_local := "20:00" }]
    store_status :=
      [{ store_id := "s1", timestamp_utc := 0, status := "active" },
       { store_id := "s1", timestamp_utc := 1800, status := "inactive" }]
    reports := [] }

/-- A noon-Monday oracle for generic witnesses. -/
def wTz : Tz := constTz { weekday := 0, hour := 12, minute := 0 }

/-- The report row `create_report "r1"` would insert. -/
def demoReport : Report := create_report "r1" 0

/-- A small database: one store with the default (absent) calendar and
three observations. -/
def demoDb : DB :=
  { stores := [{ store_id := "s1", timezone := "UTC" }]
    business_hours := []
    store_status :=
      [{ store_id := "s1", timestamp_utc := 0, status := "active" },
       { store_id := "s1", timestamp_utc := 1800, status := "inactive" },
       { store_id := "s1", timestamp_utc := 3600, status := "active" }]
    reports := [demoReport] }

/-- A database whose `store_status` table is empty. -/
def noObsDb : DB :=
  { stores := [{ store_id := "s1", timezone := "UTC" }]
    business_hours := []
    store_status := []
    reports := [demoReport] }

/-- 250 stores, for the batch-partition witness. -/
def w250Db : DB :=
  { stores := (List.range 250).map (fun i => { store_id := toString i, timezone := "UTC" })
    business_hours := []
    store_status := [{ store_id := "0", timestamp_utc := 0, status := "active" }]
    reports := [demoReport] }

/-- C7 failing input: the `stores` table is empty while `store_status`
holds one row (its nullable `store_id` foreign key need not resolve), so
the run completes and then divides by `len(stores)`. -/
def c7Db : DB :=
  { stores := []
    business_hours := []
    store_status := [{ store_id := "x", timestamp_utc := 0, status := "active" }]
    reports := [demoReport] }

/-- C8 failing input: 101 stores, hence two batches (100 and 1). -/
def c8Db : DB :=
  { stores := (List.range 101).map (fun i => { store_id := toString i, timezone := "UTC" })
    business_hours := []
    store_status := [{ store_id := "0", timestamp_utc := 0, status := "active" }]
    reports := [demoReport] }

/-- Rows of the first C8 batch (stores 0–99), at the windows anchored
on the dataset's newest timestamp `0`. -/
def c8Rows1 : List StoreResult :=
  ((c8Db.stores.drop 0).take 100).map
    (processStore wTz c8Db ((0 : ℚ) - 3600) ((0 : ℚ) - 86400) ((0 : ℚ) - 604800) 0)

/-- Rows of the second C8 batch (store 100). -/
def c8Rows2 : List StoreResult :=
  ((c8Db.stores.drop 100).take 100).map
    (processStore wTz c8Db ((0 : ℚ) - 3600) ((0 : ℚ) - 86400) ((0 : ℚ) - 604800) 0)

/-! ### Helper lemmas -/

/-- An out-of-hours pair is skipped: the loop proceeds unchanged. -/
theorem aggLoop_cons_skip (tz : Tz) (timezone : String) (rules : List HoursDict)
    (acc : ℚ × ℚ) (p : StoreStatus × StoreStatus) (rest : List (StoreStatus × StoreStatus))
    (h : inHoursPair tz timezone rules p = false) :
    aggLoop tz timezone rules acc (p :: rest) = aggLoop tz timezone rules acc rest := by
  unfold inHoursPair at h
  simp only [aggLoop, h, Bool.false_eq_true, if_false]

/-- An in-hours pair whose starting observation is active adds its
minute gap to the first accumulator. -/
theorem aggLoop_cons_active (tz : Tz) (timezone : String) (rules : List HoursDict)
    (acc : ℚ × ℚ) (p : StoreStatus × StoreStatus) (rest : List (StoreStatus × StoreStatus))
    (h : inHoursPair tz timezone rules p = true) (ha : (p.1.status == "active") = true) :
    aggLoop tz timezone rules acc (p :: rest) =
      aggLoop tz timezone rules (acc.1 + gapMinutes p, acc.2) rest := by
  unfold inHoursPair at h
  simp only [aggLoop, h, ha, if_true, gapMinutes]

/-- An in-hours pair whose starting observation is not active adds its
minute gap to the second accumulator. -/
theorem aggLoop_cons_inactive (tz : Tz) (timezone : String) (rules : List HoursDict)
    (acc : ℚ × ℚ) (p : StoreStatus × StoreStatus) (rest : List (StoreStatus × StoreStatus))
    (h : inHoursPair tz timezone rules p = true) (ha : (p.1.status == "active") = false) :
    aggLoop tz timezone rules acc (p :: rest) =
      aggLoop tz timezone rules (acc.1, acc.2 + gapMinutes p) rest := by
  unfold inHoursPair at h
  simp only [aggLoop, h, ha, if_true, Bool.false_eq_true, if_false, gapMinutes]

/-- The accumulation loop computes, on top of its accumulator, exactly
the filtered minute sums of the active and the inactive in-hours
gaps. -/
theorem aggLoop_eq_sumGaps (tz : Tz) (timezone : String) (rules : List HoursDict) :
    ∀ (ps : List (StoreStatus × StoreStatus)) (acc : ℚ × ℚ),
      aggLoop tz timezone rules acc ps =
        (acc.1 + sumGaps (activeGap tz timezone rules) ps,
         acc.2 + sumGaps (inactiveGap tz timezone rules) ps)
  | [], acc => by simp [aggLoop, sumGaps]
  | p :: rest, acc => by
    have ih := aggLoop_eq_sumGaps tz timezone rules rest
    cases hin : inHoursPair tz timezone rules p with
    | false =>
      have hA : activeGap tz timezone rules p = false := by
        simp [activeGap, hin]
      have hI : inactiveGap tz timezone rules p = false := by
        simp [inactiveGap, hin]
      rw [aggLoop_cons_skip tz timezone rules acc p rest hin, ih]
      simp only [sumGaps, List.filter_cons, hA, hI, Bool.false_eq_true, if_false]
    | true =>
      cases hact : (p.1.status == "active") with
      | true =>
        have hA : activeGap tz timezone rules p = true := by
          simp [activeGap, hin, hact]
        have hI : inactiveGap tz timezone rules p = false := by
          simp [inactiveGap, hin, hact]
        rw [aggLoop_cons_active tz timezone rules acc p rest hin hact, ih]
        simp only [sumGaps, List.filter_cons, hA, hI, if_true, Bool.false_eq_true,
          if_false, List.map_cons, List.sum_cons]
        exact Prod.ext (by ring) (by ring)
      | false =>
        have hA : activeGap tz timezone rules p = false := by
          simp [activeGap, hin, hact]
        have hI : inactiveGap tz timezone rules p = true := by
          simp [inactiveGap, hin, hact]
        rw [aggLoop_cons_inactive tz timezone rules acc p rest hin hact, ih]
        simp only [sumGaps, List.filter_cons, hA, hI, if_true, Bool.false_eq_true,
          if_false, List.map_cons, List.sum_cons]
        exact Prod.ext (by ring) (by ring)

/-- In a `Pairwise`-ordered list every adjacent pair is ordered. -/
theorem adjPairs_rel {R : StoreStatus → StoreStatus → Prop} :
    ∀ (l : List StoreStatus), l.Pairwise R → ∀ p ∈ adjPairs l, R p.1 p.2
  | [], _, p, hp => by simp [adjPairs] at hp
  | [_], _, p, hp => by simp [adjPairs] at hp
  | a :: b :: rest, h, p, hp => by
    simp only [adjPairs, List.mem_cons] at hp
    rcases hp with rfl | hp
    · exact (List.pairwise_cons.mp h).1 b (by simp)
    · exact adjPairs_rel (b :: rest) (List.pairwise_cons.mp h).2 p hp

/-- Every member of an adjacent pair is a member of the list. -/
theorem adjPairs_mem :
    ∀ (l : List StoreStatus), ∀ p ∈ adjPairs l, p.1 ∈ l ∧ p.2 ∈ l
  | [], p, hp => by simp [adjPairs] at hp
  | [_], p, hp => by simp [adjPairs] at hp
  | a :: b :: rest, p, hp => by
    simp only [adjPairs, List.mem_cons] at hp
    rcases hp with rfl | hp
    · exact ⟨by simp, by simp⟩
    · have := adjPairs_mem (b :: rest) p hp
      exact ⟨List.mem_cons_of_mem _ this.1, List.mem_cons_of_mem _ this.2⟩

/-- The unfiltered minute sum over adjacent pairs telescopes to
last-minus-first. -/
theorem sumGaps_adjPairs_all :
    ∀ (a : StoreStatus) (l : List StoreStatus),
      sumGaps (fun _ => true) (adjPairs (a :: l)) =
        (l.getLastD a).timestamp_utc / 60 - a.timestamp_utc / 60
  | _, [] => by simp [adjPairs, sumGaps]
  | a, b :: l => by
    have ih := sumGaps_adjPairs_all b l
    simp only [adjPairs, List.getLastD_cons]
    simp only [sumGaps, List.filter_cons, if_true, List.map_cons, List.sum_cons,
      gapMinutes] at ih ⊢
    rw [ih]
    ring

/-- `getLastD` picks a member of the fallback-extended list. -/
theorem getLastD_mem_cons {α : Type} :
    ∀ (l : List α) (a : α), l.getLastD a ∈ a :: l
  | [], a => by
    show a ∈ [a]
    simp
  | b :: l, a => by
    rw [List.getLastD_cons]
    exact List.mem_cons_of_mem a (getLastD_mem_cons l b)

/-- A filtered gap sum is non-negative when every gap is. -/
theorem sumGaps_nonneg (P : StoreStatus × StoreStatus → Bool)
    (ps : List (StoreStatus × StoreStatus)) (h : ∀ p ∈ ps, 0 ≤ gapMinutes p) :
    0 ≤ sumGaps P ps := by
  apply List.sum_nonneg
  intro x hx
  obtain ⟨p, hp, rfl⟩ := List.mem_map.mp hx
  exact h p (List.mem_of_mem_filter hp)

/-- Two disjoint filtered gap sums are bounded by the unfiltered sum
when every gap is non-negative. -/
theorem sumGaps_two_filters_le (P Q : StoreStatus × StoreStatus → Bool)
    (ps : List (StoreStatus × StoreStatus))
    (hnn : ∀ p ∈ ps, 0 ≤ gapMinutes p)
    (hdisj : ∀ p, ¬(P p = true ∧ Q p = true)) :
    sumGaps P ps + sumGaps Q ps ≤ sumGaps (fun _ => true) ps := by
  induction ps with
  | nil => simp [sumGaps]
  | cons p rest ih =>
    have hnn' : ∀ q ∈ rest, 0 ≤ gapMinutes q := fun q hq => hnn q (List.mem_cons_of_mem _ hq)
    have hp : 0 ≤ gapMinutes p := hnn p (List.mem_cons_self _ _)
    have hrest := ih hnn'
    simp only [sumGaps, List.filter_cons] at hrest ⊢
    cases h1 : P p <;> cases h2 : Q p
    · simp only [Bool.false_eq_true, if_false, if_true, List.map_cons, List.sum_cons]
      linarith
    · simp only [Bool.false_eq_true, if_false, if_true, List.map_cons, List.sum_cons]
      linarith
    · simp only [Bool.false_eq_true, if_false, if_true, List.map_cons, List.sum_cons]
      linarith
    · exact absurd ⟨h1, h2⟩ (hdisj p)

/-- The seed is below a `foldl max`. -/
theorem le_foldl_max : ∀ (ts : List ℚ) (t : ℚ), t ≤ ts.foldl max t
  | [], t => le_refl t
  | u :: ts, t => le_trans (le_max_left t u) (le_foldl_max ts (max t u))

/-- Every member is below a `foldl max`. -/
theorem mem_le_foldl_max : ∀ (ts : List ℚ) (t x : ℚ), x ∈ ts → x ≤ ts.foldl max t
  | [], _, _, hx => by simp at hx
  | u :: ts, t, x, hx => by
    rcases List.mem_cons.mp hx with rfl | hx
    · exact le_trans (le_max_right t x) (le_foldl_max ts (max t x))
    · exact mem_le_foldl_max ts (max t u) x hx

/-- A `foldl max` is the seed or a member. -/
theorem foldl_max_mem : ∀ (ts : List ℚ) (t : ℚ), ts.foldl max t = t ∨ ts.foldl max t ∈ ts
  | [], _ => Or.inl rfl
  | u :: ts, t => by
    show ts.foldl max (max t u) = t ∨ ts.foldl max (max t u) ∈ u :: ts
    rcases foldl_max_mem ts (max t u) with h | h
    · rw [h]
      rcases max_choice t u with hm | hm
      · exact Or.inl hm
      · refine Or.inr ?_
        rw [hm]
        exact List.mem_cons_self u ts
    · exact Or.inr (List.mem_cons_of_mem u h)

/-- `newestTimestamp` is `none` exactly on an empty observation
table. -/
theorem newestTimestamp_eq_none (db : DB) :
    newestTimestamp db = none ↔ db.store_status = [] := by
  unfold newestTimestamp
  cases db.store_status with
  | nil => simp
  | cons s rest => simp

/-- `newestTimestamp` returns a member timestamp that dominates every
timestamp in the table. -/
theorem newestTimestamp_is_max (db : DB) (m : ℚ) (h : newestTimestamp db = some m) :
    m ∈ db.store_status.map (fun s => s.timestamp_utc) ∧
      ∀ t ∈ db.store_status.map (fun s => s.timestamp_utc), t ≤ m := by
  unfold newestTimestamp at h
  cases hmap : db.store_status.map (fun s => s.timestamp_utc) with
  | nil => rw [hmap] at h; cases h
  | cons t ts =>
    rw [hmap] at h
    have hm : m = ts.foldl max t := by
      cases h
      rfl
    subst hm
    refine ⟨?_, ?_⟩
    · rcases foldl_max_mem ts t with h' | h'
      · rw [h']
        exact List.mem_cons_self t ts
      · exact List.mem_cons_of_mem t h'
    · intro x hx
      rcases List.mem_cons.mp hx with rfl | hx
      · exact le_foldl_max ts x
      · exact mem_le_foldl_max ts t x hx

/-- `newestTimestamp` only depends on the multiset of observations. -/
theorem newestTimestamp_perm (db db' : DB) (h : db.store_status.Perm db'.store_status) :
    newestTimestamp db = newestTimestamp db' := by
  have hmap : (db.store_status.map (fun s => s.timestamp_utc)).Perm
      (db'.store_status.map (fun s => s.timestamp_utc)) := h.map _
  cases h1 : newestTimestamp db with
  | none =>
    have he : db.store_status = [] := (newestTimestamp_eq_none db).mp h1
    have he' : db'.store_status = [] := by
      have := h
      rw [he] at this
      exact this.symm.eq_nil
    exact ((newestTimestamp_eq_none db').mpr he').symm
  | some m =>
    cases h2 : newestTimestamp db' with
    | none =>
      have he' : db'.store_status = [] := (newestTimestamp_eq_none db').mp h2
      have he : db.store_status = [] := by
        rw [he'] at h
        exact h.eq_nil
      rw [(newestTimestamp_eq_none db).mpr he] at h1
      cases h1
    | some m' =>
      have c1 := newestTimestamp_is_max db m h1
      have c2 := newestTimestamp_is_max db' m' h2
      have hle : m ≤ m' := c2.2 m (hmap.mem_iff.mp c1.1)
      have hge : m' ≤ m := c1.2 m' (hmap.mem_iff.mpr c2.1)
      rw [le_antisymm hle hge]

/-- `batchEvents` distributes over concatenation. -/
theorem batchEvents_append (l1 l2 : List RunEff) :
    batchEvents (l1 ++ l2) = batchEvents l1 ++ batchEvents l2 :=
  List.filterMap_append l1 l2 _

/-- The batch loop reports one completion per selected offset, in
order, with the rows of the 100-store slice at that offset. -/
theorem batchEvents_runBatches (tz : Tz) (db : DB) (lh ld lw et : ℚ) :
    ∀ idxs : List Nat,
      batchEvents (runBatches tz db lh ld lw et idxs).1 =
        idxs.map (fun i => (i / 100 + 1,
          ((db.stores.drop i).take 100).map (processStore tz db lh ld lw et)))
  | [] => rfl
  | i :: rest => by
    simp only [runBatches, batchEvents, List.filterMap_cons, List.map_cons]
    exact congrArg _ (batchEvents_runBatches tz db lh ld lw et rest)

/-- The batch loop accumulates the concatenation of its batches'
rows. -/
theorem runBatches_results (tz : Tz) (db : DB) (lh ld lw et : ℚ) :
    ∀ idxs : List Nat,
      (runBatches tz db lh ld lw et idxs).2 =
        (idxs.map (fun i =>
          ((db.stores.drop i).take 100).map (processStore tz db lh ld lw et))).flatten
  | [] => rfl
  | i :: rest => by
    simp only [runBatches, List.map_cons, List.flatten_cons]
    exact congrArg _ (runBatches_results tz db lh ld lw et rest)

/-- The artifact-and-completion effects report no batch completion. -/
theorem batchEvents_completion (rows : List StoreResult) (path : String) :
    batchEvents [RunEff.writeArtifact rows path,
      RunEff.setStatus ReportStatus.COMPLETED, RunEff.commit] = [] := rfl

/-- The optional zero-store failure effects report no batch
completion. -/
theorem batchEvents_zerostore (c : Bool) :
    batchEvents
      (if c = true then [RunEff.setStatus ReportStatus.FAILED, RunEff.commit] else []) = [] := by
  cases c <;> rfl

/-- The first-match scan equals the bounds test on the first rule
`find?` locates for the weekday, and `False` when there is none. -/
theorem businessHoursCheck_find? :
    ∀ (rules : List HoursDict) (day_of_week : Nat) (time_str : String),
      businessHoursCheck rules day_of_week time_str =
        (match rules.find? (fun r => r.day == day_of_week) with
         | some r => strLe r.start time_str && strLe time_str r.end_
         | none => false)
  | [], _, _ => rfl
  | r :: rest, day_of_week, time_str => by
    cases hd : (r.day == day_of_week) with
    | false =>
      simp only [businessHoursCheck, hd, Bool.false_eq_true, if_false, List.find?_cons, hd]
      exact businessHoursCheck_find? rest day_of_week time_str
    | true =>
      simp only [businessHoursCheck, hd, if_true, List.find?_cons, hd]

/-- On a valid weekday the default calendar's first-match scan is the
bounds test of the synthesized full-day rule for that weekday. -/
theorem businessHoursCheck_default (w : Nat) (hw : w < 7) (t : String) :
    businessHoursCheck defaultBusinessHours w t = (strLe "00:00" t && strLe t "23:59") := by
  interval_cases w <;> rfl

set_option maxRecDepth 8000 in
/-- Every zero-padded `"HH:MM"` rendering lies between `"00:00"` and
`"23:59"` in the lexicographic order. -/
theorem hhmm_strLe_bounds : ∀ h : Nat, h < 24 → ∀ m : Nat, m < 60 →
    (strLe "00:00" (fmt2 h ++ ":" ++ fmt2 m) = true ∧
      strLe (fmt2 h ++ ":" ++ fmt2 m) "23:59" = true) := by decide

/-- The default calendar's check accepts every valid local time. -/
theorem businessHoursCheck_default_true (lt : LocalTime) (hw : lt.weekday < 7)
    (hh : lt.hour < 24) (hm : lt.minute < 60) :
    businessHoursCheck defaultBusinessHours lt.weekday (timeStr lt) = true := by
  rw [businessHoursCheck_default lt.weekday hw]
  have hb := hhmm_strLe_bounds lt.hour hh lt.minute hm
  simp only [timeStr, hb.1, hb.2, Bool.and_self]

/-- Gap sums only look at the filter's values on the list. -/
theorem sumGaps_congr (P Q : StoreStatus × StoreStatus → Bool)
    (ps : List (StoreStatus × StoreStatus)) (h : ∀ p ∈ ps, P p = Q p) :
    sumGaps P ps = sumGaps Q ps := by
  unfold sumGaps
  rw [List.filter_congr h]

/-- The fetched observation list is ascending in timestamp. -/
theorem fetchStatusUpdates_sorted (db : DB) (store_id : String) (start_time end_time : ℚ) :
    (fetchStatusUpdates db store_id start_time end_time).Pairwise byTimestampLe :=
  List.sorted_insertionSort byTimestampLe _

/-- Every fetched observation lies in the inclusive window and belongs
to the store. -/
theorem fetchStatusUpdates_mem (db : DB) (store_id : String) (start_time end_time : ℚ) :
    ∀ x ∈ fetchStatusUpdates db store_id start_time end_time,
      start_time ≤ x.timestamp_utc ∧ x.timestamp_utc ≤ end_time := by
  intro x hx
  have hx' : x ∈ db.store_status.filter (fun s =>
      s.store_id == store_id
        && decide (start_time ≤ s.timestamp_utc)
        && decide (s.timestamp_utc ≤ end_time)) :=
    (List.perm_insertionSort byTimestampLe _).subset hx
  have hp := List.of_mem_filter hx'
  simp only [Bool.and_eq_true, decide_eq_true_eq] at hp
  exact ⟨hp.1.2, hp.2⟩

/-! ### Claims -/

/-- Claim C1, counterexample.  With two Wednesday rules 09:00–17:00 and
18:00–20:00 and a local time of 19:00, the claim says the active
30-minute pair is counted because 19:00 lies inside SOME rule (the
second); the code only consults the first rule listed for the weekday,
skips the pair, and returns `(0, 0)` instead of `(30, 0)`. -/
theorem C1_counterexample :
    calculate_uptime_downtime cexTz cexDb "s1" 0 3600 = (0, 0) ∧
    spec_counted_sums cexTz cexDb "s1" 0 3600 = (30, 0) ∧
    calculate_uptime_downtime cexTz cexDb "s1" 0 3600 ≠
      spec_counted_sums cexTz cexDb "s1" 0 3600 := by
  have h1 : calculate_uptime_downtime cexTz cexDb "s1" 0 3600 = (0, 0) := rfl
  have h2 : spec_counted_sums cexTz cexDb "s1" 0 3600 =
      (((1800 : ℚ) - 0) / 60 + 0, 0) := rfl
  have h3 : ((1800 : ℚ) - 0) / 60 + 0 = 30 := by norm_num
  refine ⟨h1, ?_, ?_⟩
  · rw [h2, h3]
  · rw [h1, h2, h3]
    intro hc
    rw [Prod.mk.injEq] at hc
    exact absurd hc.1 (by norm_num)

/-- Claim C1, amended: a pair's duration is counted iff the local time
of its starting observation lies, with both endpoints inclusive, inside
the FIRST rule listed for that local weekday (`find?` order); rules
after the first one naming that weekday are ignored, and when no rule
names the weekday the pair is skipped.  A skipped pair contributes to
neither accumulator, regardless of the next observation's timestamp;
the standalone helper applies the same first-match scan. -/
theorem C1_first_rule_semantics (tz : Tz) (db : DB) (timezone : String)
    (rules : List HoursDict) (day_of_week : Nat) (time_str : String)
    (timestamp : ℚ) (store_id : String) (acc : ℚ × ℚ)
    (p : StoreStatus × StoreStatus) (rest : List (StoreStatus × StoreStatus)) :
    (businessHoursCheck rules day_of_week time_str =
      (match rules.find? (fun r => r.day == day_of_week) with
       | some r => strLe r.start time_str && strLe time_str r.end_
       | none => false)) ∧
    (is_within_business_hours tz db timestamp store_id =
      businessHoursCheck (get_business_hours db store_id)
        (tz (get_store_timezone db store_id) timestamp).weekday
        (timeStr (tz (get_store_timezone db store_id) timestamp))) ∧
    (inHoursPair tz timezone rules p = false →
      aggLoop tz timezone rules acc (p :: rest) = aggLoop tz timezone rules acc rest) ∧
    (inHoursPair tz timezone rules p = true →
      aggLoop tz timezone rules acc (p :: rest) =
        (if p.1.status == "active" then
          aggLoop tz timezone rules (acc.1 + gapMinutes p, acc.2) rest
        else
          aggLoop tz timezone rules (acc.1, acc.2 + gapMinutes p) rest)) := by
  refine ⟨businessHoursCheck_find? rules day_of_week time_str, rfl,
    aggLoop_cons_skip tz timezone rules acc p rest, ?_⟩
  intro hin
  cases hact : (p.1.status == "active") with
  | true =>
    rw [aggLoop_cons_active tz timezone rules acc p rest hin hact]
    simp [hact]
  | false =>
    rw [aggLoop_cons_inactive tz timezone rules acc p rest hin hact]
    simp [hact]

/-- Witness for C1: the out-of-hours pair of the counterexample data is
skipped entirely. -/
theorem C1_first_rule_semantics_witness :
    aggLoop cexTz "UTC" (get_business_hours cexDb "s1") (0, 0)
        [({ store_id := "s1", timestamp_utc := 0, status := "active" },
          { store_id := "s1", timestamp_utc := 1800, status := "inactive" })] =
      aggLoop cexTz "UTC" (get_business_hours cexDb "s1") (0, 0) [] :=
  (C1_first_rule_semantics cexTz cexDb "UTC" (get_business_hours cexDb "s1") 2 "19:00"
      0 "s1" (0, 0)
      ({ store_id := "s1", timestamp_utc := 0, status := "active" },
       { store_id := "s1", timestamp_utc := 1800, status := "inactive" }) []).2.2.1
    (by rfl)

/-- Claim C2: the aggregation returns exactly the pair of filtered
minute sums over adjacent in-window pairs — active starting status into
the first component, non-active into the second — in exact rational
(sub-minute) precision; zero or one in-window observation yields
`(0, 0)`, and a pair sharing a timestamp contributes zero minutes. -/
theorem C2_aggregation_sums (tz : Tz) (db : DB) (store_id : String)
    (start_time end_time : ℚ) :
    (calculate_uptime_downtime tz db store_id start_time end_time =
      (sumGaps (activeGap tz (get_store_timezone db store_id)
          (get_business_hours db store_id))
        (adjPairs (fetchStatusUpdates db store_id start_time end_time)),
       sumGaps (inactiveGap tz (get_store_timezone db store_id)
          (get_business_hours db store_id))
        (adjPairs (fetchStatusUpdates db store_id start_time end_time)))) ∧
    ((fetchStatusUpdates db store_id start_time end_time).length ≤ 1 →
      calculate_uptime_downtime tz db store_id start_time end_time = (0, 0)) ∧
    (∀ p ∈ adjPairs (fetchStatusUpdates db store_id start_time end_time),
      p.1.timestamp_utc = p.2.timestamp_utc → gapMinutes p = 0) := by
  refine ⟨?_, ?_, ?_⟩
  · simp only [calculate_uptime_downtime]
    cases hl : fetchStatusUpdates db store_id start_time end_time with
    | nil => simp [adjPairs, sumGaps]
    | cons a rest =>
      simp only [List.isEmpty_cons, Bool.false_eq_true, if_false]
      rw [aggLoop_eq_sumGaps]
      simp
  · intro hlen
    simp only [calculate_uptime_downtime]
    cases hl : fetchStatusUpdates db store_id start_time end_time with
    | nil => simp
    | cons a rest =>
      cases rest with
      | nil =>
        simp only [List.isEmpty_cons, Bool.false_eq_true, if_false]
        rfl
      | cons b rest' =>
        rw [hl] at hlen
        simp at hlen
  · intro p _ hts
    unfold gapMinutes
    rw [hts]
    simp

/-- Witness for C2: a window holding exactly one observation returns
`(0, 0)`. -/
theorem C2_aggregation_sums_witness :
    calculate_uptime_downtime wTz demoDb "s1" 0 0 = (0, 0) :=
  (C2_aggregation_sums wTz demoDb "s1" 0 0).2.1 (by decide)

/-- Claim C3: the shared window end is the maximum `timestamp_utc` of
the whole dataset — a member that dominates every timestamp, invariant
under reordering of the observations — the three starts are that end
minus one hour, one day and one week, and a dataset with zero
observations drives the run to `FAILED` with no artifact written and no
batch processed. -/
theorem C3_window_planning :
    (∀ (db : DB) (m : ℚ), newestTimestamp db = some m →
      m ∈ db.store_status.map (fun s => s.timestamp_utc) ∧
        ∀ t ∈ db.store_status.map (fun s => s.timestamp_utc), t ≤ m) ∧
    (∀ db db' : DB, db.store_status.Perm db'.store_status →
      newestTimestamp db = newestTimestamp db') ∧
    (∀ m : ℚ, planWindows m = ((m - 3600, m), (m - 86400, m), (m - 604800, m))) ∧
    (∀ (tz : Tz) (db : DB) (process_batch : ℤ) (report_id : String) (r : Report),
      get_report db report_id = some r → db.store_status = [] →
      generate_report tz db process_batch report_id =
        [RunEff.setStatus ReportStatus.FAILED, RunEff.commit]) := by
  refine ⟨newestTimestamp_is_max, newestTimestamp_perm, fun m => rfl, ?_⟩
  intro tz db process_batch report_id r hr hobs
  have hnone : newestTimestamp db = none := (newestTimestamp_eq_none db).mpr hobs
  simp only [generate_report, hr, hnone]

/-- Witness for C3: a report whose dataset has no observations fails
immediately. -/
theorem C3_window_planning_witness :
    generate_report wTz noObsDb (-1) "r1" =
      [RunEff.setStatus ReportStatus.FAILED, RunEff.commit] :=
  C3_window_planning.2.2.2 wTz noObsDb (-1) "r1" demoReport rfl rfl

/-- Claim C4: for a window with `start ≤ end`, both aggregated values
are non-negative and their sum is at most the window length in minutes
(60, 1440 and 10080 for the three windows). -/
theorem C4_bounds (tz : Tz) (db : DB) (store_id : String) (start_time end_time : ℚ)
    (h : start_time ≤ end_time) :
    0 ≤ (calculate_uptime_downtime tz db store_id start_time end_time).1 ∧
    0 ≤ (calculate_uptime_downtime tz db store_id start_time end_time).2 ∧
    (calculate_uptime_downtime tz db store_id start_time end_time).1 +
        (calculate_uptime_downtime tz db store_id start_time end_time).2 ≤
      (end_time - start_time) / 60 := by
  have hwin : (0 : ℚ) ≤ (end_time - start_time) / 60 :=
    div_nonneg (by linarith) (by norm_num)
  simp only [calculate_uptime_downtime]
  cases hl : fetchStatusUpdates db store_id start_time end_time with
  | nil => simpa using hwin
  | cons a rest =>
    simp only [List.isEmpty_cons, Bool.false_eq_true, if_false]
    rw [aggLoop_eq_sumGaps]
    have hsorted : (a :: rest).Pairwise byTimestampLe := by
      rw [← hl]
      exact fetchStatusUpdates_sorted db store_id start_time end_time
    have hmem : ∀ x ∈ (a :: rest),
        start_time ≤ x.timestamp_utc ∧ x.timestamp_utc ≤ end_time := by
      intro x hx
      refine fetchStatusUpdates_mem db store_id start_time end_time x ?_
      rw [hl]
      exact hx
    have hgaps : ∀ p ∈ adjPairs (a :: rest), 0 ≤ gapMinutes p := by
      intro p hp
      have hle : byTimestampLe p.1 p.2 := adjPairs_rel _ hsorted p hp
      unfold byTimestampLe at hle
      unfold gapMinutes
      exact div_nonneg (by linarith) (by norm_num)
    have hnn1 := sumGaps_nonneg
      (activeGap tz (get_store_timezone db store_id) (get_business_hours db store_id))
      (adjPairs (a :: rest)) hgaps
    have hnn2 := sumGaps_nonneg
      (inactiveGap tz (get_store_timezone db store_id) (get_business_hours db store_id))
      (adjPairs (a :: rest)) hgaps
    have hdisj : ∀ p : StoreStatus × StoreStatus,
        ¬(activeGap tz (get_store_timezone db store_id) (get_business_hours db store_id) p
            = true ∧
          inactiveGap tz (get_store_timezone db store_id) (get_business_hours db store_id) p
            = true) := by
      rintro p ⟨h1, h2⟩
      simp only [activeGap, inactiveGap, Bool.and_eq_true, Bool.not_eq_true'] at h1 h2
      rw [h1.2] at h2
      cases h2.2
    have hsum := sumGaps_two_filters_le
      (activeGap tz (get_store_timezone db store_id) (get_business_hours db store_id))
      (inactiveGap tz (get_store_timezone db store_id) (get_business_hours db store_id))
      (adjPairs (a :: rest)) hgaps hdisj
    have htel := sumGaps_adjPairs_all a rest
    have hfirst := (hmem a (List.mem_cons_self a rest)).1
    have hlast := (hmem (rest.getLastD a) (getLastD_mem_cons rest a)).2
    refine ⟨by simpa using hnn1, by simpa using hnn2, ?_⟩
    simp only [zero_add]
    rw [htel] at hsum
    linarith

/-- Witness for C4: the demo store over the hour window. -/
theorem C4_bounds_witness :
    0 ≤ (calculate_uptime_downtime wTz demoDb "s1" 0 3600).1 ∧
    0 ≤ (calculate_uptime_downtime wTz demoDb "s1" 0 3600).2 ∧
    (calculate_uptime_downtime wTz demoDb "s1" 0 3600).1 +
        (calculate_uptime_downtime wTz demoDb "s1" 0 3600).2 ≤
      ((3600 : ℚ) - 0) / 60 :=
  C4_bounds wTz demoDb "s1" 0 3600 (by norm_num)

/-- Claim C5: every produced row carries the hour-window aggregates
rounded to two decimal digits and the day/week aggregates divided by 60
BEFORE rounding, all six through the same `round(_, 2)` convention
(round half to even); dividing before rounding differs from rounding
the minutes first, e.g. at 125 minutes. -/
theorem C5_rounding (tz : Tz) (db : DB) (last_hour last_day last_week end_time : ℚ)
    (store : Store) :
    (processStore tz db last_hour last_day last_week end_time store =
      { store_id := store.store_id
        uptime_last_hour :=
          round2 (calculate_uptime_downtime tz db store.store_id last_hour end_time).1
        uptime_last_day :=
          round2 ((calculate_uptime_downtime tz db store.store_id last_day end_time).1 / 60)
        uptime_last_week :=
          round2 ((calculate_uptime_downtime tz db store.store_id last_week end_time).1 / 60)
        downtime_last_hour :=
          round2 (calculate_uptime_downtime tz db store.store_id last_hour end_time).2
        downtime_last_day :=
          round2 ((calculate_uptime_downtime tz db store.store_id last_day end_time).2 / 60)
        downtime_last_week :=
          round2 ((calculate_uptime_downtime tz db store.store_id last_week end_time).2 / 60) }) ∧
    round2 ((125 : ℚ) / 60) ≠ round2 (125 : ℚ) / 60 := by
  refine ⟨rfl, ?_⟩
  have hf1 : ⌊(125 : ℚ) / 60 * 100⌋ = 208 := by
    rw [Int.floor_eq_iff]
    norm_num
  have hf2 : ⌊(125 : ℚ) * 100⌋ = 12500 := by
    rw [Int.floor_eq_iff]
    norm_num
  have h1 : roundHalfEven ((125 : ℚ) / 60 * 100) = 208 := by
    unfold roundHalfEven
    rw [hf1]
    norm_num
  have h2 : roundHalfEven ((125 : ℚ) * 100) = 12500 := by
    unfold roundHalfEven
    rw [hf2]
    norm_num
  unfold round2
  rw [h1, h2]
  norm_num

/-- Witness for C5: the row equation at a concrete store and window. -/
theorem C5_rounding_witness :
    processStore wTz demoDb 0 0 0 3600 { store_id := "s1", timezone := "UTC" } =
      { store_id := "s1"
        uptime_last_hour := round2 (calculate_uptime_downtime wTz demoDb "s1" 0 3600).1
        uptime_last_day := round2 ((calculate_uptime_downtime wTz demoDb "s1" 0 3600).1 / 60)
        uptime_last_week := round2 ((calculate_uptime_downtime wTz demoDb "s1" 0 3600).1 / 60)
        downtime_last_hour := round2 (calculate_uptime_downtime wTz demoDb "s1" 0 3600).2
        downtime_last_day := round2 ((calculate_uptime_downtime wTz demoDb "s1" 0 3600).2 / 60)
        downtime_last_week :=
          round2 ((calculate_uptime_downtime wTz demoDb "s1" 0 3600).2 / 60) } :=
  (C5_rounding wTz demoDb 0 0 0 3600 { store_id := "s1", timezone := "UTC" }).1

/-- Claim C6: stores are cut into consecutive 100-store batches (last
one possibly smaller); a 1-based index `k` in `[1, total]` processes
exactly the slice from position `(k-1)*100+1` to `min(k*100, n)`, in
order, labelled `k`; an index other than the all-batches sentinel `-1`
falling outside `[1, total]` fails the run with no batch processed and
no rows produced. -/
theorem C6_batch_selection :
    (∀ (tz : Tz) (db : DB) (report_id : String) (r : Report) (k : ℤ),
      get_report db report_id = some r → k ≠ -1 →
      (k < 1 ∨ (((db.stores.length + 100 - 1) / 100 : ℕ) : ℤ) < k) →
      generate_report tz db k report_id =
        [RunEff.setStatus ReportStatus.FAILED, RunEff.commit]) ∧
    (∀ (tz : Tz) (db : DB) (report_id : String) (r : Report) (k : ℤ) (m : ℚ),
      get_report db report_id = some r → newestTimestamp db = some m →
      1 ≤ k → k ≤ (((db.stores.length + 100 - 1) / 100 : ℕ) : ℤ) →
      batchEvents (generate_report tz db k report_id) =
        [(k.toNat, ((db.stores.drop ((k.toNat - 1) * 100)).take 100).map
            (processStore tz db (m - 3600) (m - 86400) (m - 604800) m))]) ∧
    (∀ (tz : Tz) (db : DB) (report_id : String) (r : Report) (m : ℚ),
      get_report db report_id = some r → newestTimestamp db = some m →
      batchEvents (generate_report tz db (-1) report_id) =
        (List.range ((db.stores.length + 100 - 1) / 100)).map (fun j =>
          (j + 1, ((db.stores.drop (j * 100)).take 100).map
            (processStore tz db (m - 3600) (m - 86400) (m - 604800) m)))) := by
  refine ⟨?_, ?_, ?_⟩
  · intro tz db report_id r k hr hk hout
    simp only [generate_report, hr]
    cases hn : newestTimestamp db with
    | none => rfl
    | some m =>
      have hbeq : (k == -1) = false := by
        simp only [beq_eq_false_iff_ne, ne_eq]
        exact hk
      have hcond : (decide (k < 1)
          || decide ((((db.stores.length + 100 - 1) / 100 : ℕ) : ℤ) < k)) = true := by
        rcases hout with h | h
        · rw [decide_eq_true h, Bool.true_or]
        · rw [decide_eq_true h, Bool.or_true]
      simp only [hbeq, Bool.false_eq_true, if_false, hcond, if_true]
  · intro tz db report_id r k m hr hn h1 h2
    simp only [generate_report, hr, hn]
    have hbeq : (k == -1) = false := by
      simp only [beq_eq_false_iff_ne, ne_eq]
      omega
    have hc1 : decide (k < 1) = false := by
      simp only [decide_eq_false_iff_not, not_lt]
      omega
    have hc2 : decide ((((db.stores.length + 100 - 1) / 100 : ℕ) : ℤ) < k) = false := by
      simp only [decide_eq_false_iff_not, not_lt]
      omega
    simp only [hbeq, Bool.false_eq_true, if_false, hc1, hc2, Bool.or_self]
    rw [batchEvents_append, batchEvents_append, batchEvents_runBatches,
      batchEvents_completion, batchEvents_zerostore]
    have hdiv : (k.toNat - 1) * 100 / 100 + 1 = k.toNat := by
      rw [Nat.mul_div_cancel _ (by norm_num : 0 < 100)]
      omega
    simp only [List.append_nil, List.map_cons, List.map_nil]
    rw [hdiv]
    rfl
  · intro tz db report_id r m hr hn
    simp only [generate_report, hr, hn]
    simp only [Int.reduceNeg, beq_self_eq_true, if_true]
    rw [batchEvents_append, batchEvents_append, batchEvents_runBatches,
      batchEvents_completion, batchEvents_zerostore]
    unfold batchIndices
    rw [List.map_map, List.append_nil, List.append_nil]
    apply List.map_congr_left
    intro j _
    simp only [Function.comp]
    rw [Nat.mul_div_cancel _ (by norm_num : 0 < 100)]
    rfl

set_option maxRecDepth 8000 in
/-- Witness for C6: with 250 stores the out-of-range index 4 fails the
run, and the all-batch run yields three batches of 100, 100 and 50
stores labelled 1, 2, 3. -/
theorem C6_batch_selection_witness :
    generate_report wTz w250Db 4 "r1" =
      [RunEff.setStatus ReportStatus.FAILED, RunEff.commit] ∧
    (batchEvents (generate_report wTz w250Db (-1) "r1")).map
        (fun b => (b.1, b.2.length)) = [(1, 100), (2, 100), (3, 50)] := by
  constructor
  · exact C6_batch_selection.1 wTz w250Db "r1" demoReport 4 rfl (by decide)
      (Or.inr (by decide))
  · rw [C6_batch_selection.2.2 wTz w250Db "r1" demoReport 0 rfl rfl]
    have hlen : w250Db.stores.length = 250 := by
      show ((List.range 250).map _).length = 250
      rw [List.length_map, List.length_range]
    simp only [List.map_map, Function.comp, List.length_map, List.length_take,
      List.length_drop, hlen]
    decide

/-- Claim C7 (code bug): with zero `stores` rows, at least one
observation (the nullable `store_id` foreign key permits this) and the
all-batches selector, the run's status column receives `RUNNING`, then
`COMPLETED`, then `FAILED` — the post-commit statistics lines divide by
`len(stores)` and the `ZeroDivisionError` handler overwrites the
terminal `COMPLETED`, contradicting the monotonic state machine the
claim (and the spec's §4.5) states. -/
theorem C7_status_trace_eval :
    runStatusTrace wTz c7Db (-1) "r1" 0 =
      [ReportStatus.RUNNING, ReportStatus.COMPLETED, ReportStatus.FAILED] := rfl

/-- Claim C8 (code bug): on a 101-store run the only effect carrying
result rows to the outside is the single artifact write, which happens
after BOTH batches and holds both batches' rows; the per-batch commits
carry no rows, so batch 1's rows are still in memory, not durable, when
batch 2 starts — against the claim's per-batch durability. -/
theorem C8_batch_persistence_eval :
    generate_report wTz c8Db (-1) "r1" =
      [RunEff.batchDone 1 c8Rows1, RunEff.commit,
       RunEff.batchDone 2 c8Rows2, RunEff.commit,
       RunEff.writeArtifact (c8Rows1 ++ c8Rows2) "reports/report_r1.csv",
       RunEff.setStatus ReportStatus.COMPLETED, RunEff.commit] := rfl

/-- Claim C9: a store with no `stores` row falls back to the fixed zone
`"America/Chicago"`; a store with zero `business_hours` rows gets, for
itself alone, one `00:00`–`23:59` rule per weekday 0–6; under that
default every valid local time passes the check, so the aggregation
loop counts every gap regardless of local time. -/
theorem C9_defaults :
    (∀ (db : DB) (store_id : String),
      db.stores.find? (fun s => s.store_id == store_id) = none →
      get_store_timezone db store_id = "America/Chicago") ∧
    (∀ (db : DB) (store_id : String),
      db.business_hours.filter (fun h => h.store_id == store_id) = [] →
      get_business_hours db store_id = defaultBusinessHours) ∧
    (defaultBusinessHours =
      (List.range 7).map (fun i => { day := i, start := "00:00", end_ := "23:59" })) ∧
    (∀ lt : LocalTime, lt.weekday < 7 → lt.hour < 24 → lt.minute < 60 →
      businessHoursCheck defaultBusinessHours lt.weekday (timeStr lt) = true) ∧
    (∀ (tz : Tz) (timezone : String),
      (∀ t : ℚ, (tz timezone t).weekday < 7 ∧ (tz timezone t).hour < 24 ∧
        (tz timezone t).minute < 60) →
      ∀ (acc : ℚ × ℚ) (ps : List (StoreStatus × StoreStatus)),
        aggLoop tz timezone defaultBusinessHours acc ps =
          (acc.1 + sumGaps (fun p => p.1.status == "active") ps,
           acc.2 + sumGaps (fun p => !(p.1.status == "active")) ps)) := by
  refine ⟨?_, ?_, rfl, ?_, ?_⟩
  · intro db store_id h
    unfold get_store_timezone
    rw [h]
  · intro db store_id h
    unfold get_business_hours
    rw [h]
    rfl
  · intro lt hw hh hm
    exact businessHoursCheck_default_true lt hw hh hm
  · intro tz timezone hvalid acc ps
    rw [aggLoop_eq_sumGaps]
    have h1 : sumGaps (activeGap tz timezone defaultBusinessHours) ps =
        sumGaps (fun p => p.1.status == "active") ps := by
      apply sumGaps_congr
      intro p _
      have hv := hvalid p.1.timestamp_utc
      simp [activeGap, inHoursPair,
        businessHoursCheck_default_true (tz timezone p.1.timestamp_utc) hv.1 hv.2.1 hv.2.2]
    have h2 : sumGaps (inactiveGap tz timezone defaultBusinessHours) ps =
        sumGaps (fun p => !(p.1.status == "active")) ps := by
      apply sumGaps_congr
      intro p _
      have hv := hvalid p.1.timestamp_utc
      simp [inactiveGap, inHoursPair,
        businessHoursCheck_default_true (tz timezone p.1.timestamp_utc) hv.1 hv.2.1 hv.2.2]
    rw [h1, h2]

/-- Witness for C9: an unknown store id yields the default zone, and a
Wednesday 19:00 local time passes the default calendar's check. -/
theorem C9_defaults_witness :
    get_store_timezone cexDb "zz" = "America/Chicago" ∧
    businessHoursCheck defaultBusinessHours 2
      (timeStr { weekday := 2, hour := 19, minute := 0 }) = true :=
  ⟨C9_defaults.1 cexDb "zz" rfl,
   C9_defaults.2.2.2.1 { weekday := 2, hour := 19, minute := 0 }
     (by decide) (by decide) (by decide)⟩

/-- Claim C10: a `generate_report` call for an unknown report id
returns after the early guard with no effect at all: no status write,
no batch, no artifact. -/
theorem C10_missing_report (tz : Tz) (db : DB) (process_batch : ℤ) (report_id : String)
    (h : get_report db report_id = none) :
    generate_report tz db process_batch report_id = [] := by
  simp only [generate_report, h]

/-- Witness for C10: the counterexample database has no reports
table rows, so any id is unknown. -/
theorem C10_missing_report_witness : generate_report wTz cexDb 1 "r1" = [] :=
  C10_missing_report wTz cexDb 1 "r1" rfl

end SM
